import Mathlib

/-!
Verification of the point-placement core of `heart2.py`
(`calculate_overlap_area` and `generate_solid_heart_points`).

Modelling conventions:
* Pixel coordinates and rectangle corners are integers (`ℤ`); overlap
  percentages are exact rationals (`ℚ`), mirroring Python's exact integer
  arithmetic and its division `overlap_area / min_area`.
* The occupancy mask is a boolean grid (`List (List Bool)`); `truePixels`
  extracts the `(row, col)` pairs where it is true, in row-major order,
  as `np.column_stack(np.where(mask_array > 0))` does.
* `np.random.shuffle` is modelled by quantifying over arbitrary orderings:
  `generate_solid_heart_points` takes the two shuffled candidate lists
  (one per phase) as parameters, and mask-level theorems assume they are
  permutations of `truePixels mask`.
* The primary loop `for y, x in heart_pixels:` iterates over the array as
  it was when the loop started; the reassignment
  `heart_pixels = heart_pixels[distances > min_distance * 0.3]` inside the
  loop rebinds the variable without affecting the ongoing iteration.  The
  state therefore carries the variable's current value (`cur`, used only by
  later reassignments) while the fold itself runs over the original list.
  The state also records every pixel that reaches the loop body (`tested`).
* `np.sqrt(d2) > t` is rendered without square roots as
  `t < 0 ∨ d2 > t ^ 2`, which is equivalent for `d2 ≥ 0`.
-/

namespace Heart

/-- An axis-aligned rectangle `(x0, y0, x1, y1)`, as the 4-tuples in the
Python source. -/
structure Rect where
  x0 : Int
  y0 : Int
  x1 : Int
  y1 : Int
deriving DecidableEq, Repr

/-- The signed area `(rect[2] - rect[0]) * (rect[3] - rect[1])`. -/
def rectArea (r : Rect) : Int :=
  (r.x1 - r.x0) * (r.y1 - r.y0)

/-- Model of `calculate_overlap_area(rect1, rect2)` from `heart2.py` lines 8-19. -/
def calculate_overlap_area (rect1 rect2 : Rect) : ℚ :=
  let x1 := max rect1.x0 rect2.x0
  let y1 := max rect1.y0 rect2.y0
  let x2 := min rect1.x1 rect2.x1
  let y2 := min rect1.y1 rect2.y1
  if x2 < x1 ∨ y2 < y1 then 0
  else
    let overlap_area := (x2 - x1) * (y2 - y1)
    let min_area := min (rectArea rect1) (rectArea rect2)
    if min_area > 0 then ((overlap_area : ℤ) : ℚ) / ((min_area : ℤ) : ℚ) * 100 else 0

/-- The footprint rectangle of line 50:
`(x - img_size // 2, y - img_size // 2, x + img_size // 2, y + img_size // 2)`. -/
def footprintRect (x y : Int) (img_size : Nat) : Rect :=
  ⟨x - (img_size / 2 : Nat), y - (img_size / 2 : Nat),
   x + (img_size / 2 : Nat), y + (img_size / 2 : Nat)⟩

/-- The quantity `min_distance = img_size * (1 - max_overlap_percent / 100) * 0.8` (line 44). -/
def min_distance (img_size : Nat) (max_overlap_percent : ℚ) : ℚ :=
  (img_size : ℚ) * (1 - max_overlap_percent / 100) * (8 / 10)

/-- The pruning radius `min_distance * 0.3` (line 64). -/
def pruneThreshold (img_size : Nat) (max_overlap_percent : ℚ) : ℚ :=
  min_distance img_size max_overlap_percent * (3 / 10)

/-- The filter `distances > min_distance * 0.3` of line 64, applied to a pixel
`q = (row, col)` relative to the just-accepted pixel with row `y`, column `x`;
`sqrt(d2) > t` is expressed as `t < 0 ∨ d2 > t ^ 2`. -/
def keepAfterPrune (t : ℚ) (y x : Int) (q : Int × Int) : Bool :=
  decide (t < 0 ∨ ((((q.1 - y) ^ 2 + (q.2 - x) ^ 2 : Int) : ℚ) > t ^ 2))

/-- State of the primary-phase loop (lines 42-64): the `selected_points` and
`placed_rectangles` lists, the current value of the `heart_pixels` variable
(`cur`), and the trace of pixels that reached the loop body (`tested`). -/
structure PrimaryState where
  selected : List (Int × Int)
  placed : List Rect
  cur : List (Int × Int)
  tested : List (Int × Int)
deriving Repr

/-- One iteration of the primary loop body (lines 46-64) on pixel
`p = (y, x)`. -/
def primaryStep (num_points img_size : Nat) (max_overlap_percent : ℚ)
    (s : PrimaryState) (p : Int × Int) : PrimaryState :=
  if num_points ≤ s.selected.length then s
  else
    let y := p.1
    let x := p.2
    let rect1 := footprintRect x y img_size
    let tested' := s.tested ++ [p]
    if s.placed.any (fun rect2 =>
        decide (max_overlap_percent < calculate_overlap_area rect1 rect2)) then
      { s with tested := tested' }
    else
      let selected' := s.selected ++ [(x, y)]
      let cur' :=
        if selected'.length % 5 = 0 then
          s.cur.filter (keepAfterPrune (pruneThreshold img_size max_overlap_percent) y x)
        else s.cur
      { selected := selected', placed := s.placed ++ [rect1],
        cur := cur', tested := tested' }

/-- The whole primary phase run on the shuffled candidate list `pixels`
(the Python `for` loop iterates the array captured at loop entry, even
though the body rebinds `heart_pixels`). -/
def primaryRun (num_points img_size : Nat) (max_overlap_percent : ℚ)
    (pixels : List (Int × Int)) : PrimaryState :=
  pixels.foldl (primaryStep num_points img_size max_overlap_percent)
    ⟨[], [], pixels, []⟩

/-- The containment test of line 73:
`0 < x < width - img_size and 0 < y < height - img_size`
for a pixel `p = (y, x)`. -/
def inBoundsFB (width height : Int) (img_size : Nat) (p : Int × Int) : Bool :=
  decide (0 < p.2 ∧ p.2 < width - (img_size : Int) ∧
          0 < p.1 ∧ p.1 < height - (img_size : Int))

/-- One iteration of the fallback loop body (lines 70-74). -/
def fallbackStep (num_points : Nat) (width height : Int) (img_size : Nat)
    (sel : List (Int × Int)) (p : Int × Int) : List (Int × Int) :=
  if num_points ≤ sel.length then sel
  else if inBoundsFB width height img_size p then sel ++ [(p.2, p.1)] else sel

/-- The fallback phase (lines 66-74) run on the reshuffled candidate list. -/
def fallbackPhase (num_points : Nat) (width height : Int) (img_size : Nat)
    (sel : List (Int × Int)) (pixels : List (Int × Int)) : List (Int × Int) :=
  pixels.foldl (fallbackStep num_points width height img_size) sel

/-- Model of `generate_solid_heart_points` (lines 22-76), with the mask extraction and
the two shuffles abstracted into the parameters `shuffle1` and `shuffle2`:
run the primary phase, and if it selected fewer than `num_points` points,
continue with the fallback phase. -/
def generate_solid_heart_points (num_points : Nat) (width height : Int)
    (img_size : Nat) (max_overlap_percent : ℚ)
    (shuffle1 shuffle2 : List (Int × Int)) : List (Int × Int) :=
  let pr := primaryRun num_points img_size max_overlap_percent shuffle1
  if pr.selected.length < num_points then
    fallbackPhase num_points width height img_size pr.selected shuffle2
  else pr.selected

/-- The `(row, col)` positions of the true pixels of a mask, row-major, as
`np.column_stack(np.where(mask_array > 0))` produces them. -/
def truePixels (mask : List (List Bool)) : List (Int × Int) :=
  (mask.enum.map (fun row =>
    row.2.enum.filterMap (fun c =>
      if c.2 then some ((row.1 : Int), (c.1 : Int)) else none))).flatten

/-- Division as Python performs it: `a / b` raises `ZeroDivisionError`
when `b = 0`. -/
def qdivE (a b : ℚ) : Except String ℚ :=
  if b = 0 then Except.error "ZeroDivisionError" else Except.ok (a / b)

/-- Variant of `calculate_overlap_area` with Python's fallible division made explicit. -/
def calculate_overlap_areaE (rect1 rect2 : Rect) : Except String ℚ :=
  let x1 := max rect1.x0 rect2.x0
  let y1 := max rect1.y0 rect2.y0
  let x2 := min rect1.x1 rect2.x1
  let y2 := min rect1.y1 rect2.y1
  if x2 < x1 ∨ y2 < y1 then Except.ok 0
  else
    let overlap_area := (x2 - x1) * (y2 - y1)
    let min_area := min (rectArea rect1) (rectArea rect2)
    if min_area > 0 then do
      let q ← qdivE ((overlap_area : ℤ) : ℚ) ((min_area : ℤ) : ℚ)
      Except.ok (q * 100)
    else Except.ok 0

/-- The inner overlap loop of lines 53-56 with its `break`-on-first-violation
control flow, in the fallible model. -/
def anyOverlapE (max_overlap_percent : ℚ) (rect1 : Rect) :
    List Rect → Except String Bool
  | [] => Except.ok false
  | rect2 :: rest => do
      let v ← calculate_overlap_areaE rect1 rect2
      if max_overlap_percent < v then Except.ok true
      else anyOverlapE max_overlap_percent rect1 rest

/-- Variant of `primaryStep` in the fallible model. -/
def primaryStepE (num_points img_size : Nat) (max_overlap_percent : ℚ)
    (s : PrimaryState) (p : Int × Int) : Except String PrimaryState :=
  if num_points ≤ s.selected.length then Except.ok s
  else do
    let over ← anyOverlapE max_overlap_percent (footprintRect p.2 p.1 img_size) s.placed
    if over then
      Except.ok { s with tested := s.tested ++ [p] }
    else
      let selected' := s.selected ++ [(p.2, p.1)]
      Except.ok
        { selected := selected',
          placed := s.placed ++ [footprintRect p.2 p.1 img_size],
          cur :=
            if selected'.length % 5 = 0 then
              s.cur.filter (keepAfterPrune (pruneThreshold img_size max_overlap_percent) p.1 p.2)
            else s.cur,
          tested := s.tested ++ [p] }

/-- The primary phase in the fallible model. -/
def primaryRunE (num_points img_size : Nat) (max_overlap_percent : ℚ)
    (pixels : List (Int × Int)) : Except String PrimaryState :=
  pixels.foldlM (primaryStepE num_points img_size max_overlap_percent)
    ⟨[], [], pixels, []⟩

/-- Variant of `generate_solid_heart_points` in the fallible model (the fallback phase
performs no division, so only the primary phase threads the exception). -/
def generate_solid_heart_pointsE (num_points : Nat) (width height : Int)
    (img_size : Nat) (max_overlap_percent : ℚ)
    (shuffle1 shuffle2 : List (Int × Int)) : Except String (List (Int × Int)) := do
  let pr ← primaryRunE num_points img_size max_overlap_percent shuffle1
  if pr.selected.length < num_points then
    Except.ok (fallbackPhase num_points width height img_size pr.selected shuffle2)
  else Except.ok pr.selected

/-! ## Helper lemmas -/

/-- The function `calculate_overlap_area` is symmetric in its two arguments. -/
theorem calcOverlap_comm (r1 r2 : Rect) :
    calculate_overlap_area r1 r2 = calculate_overlap_area r2 r1 := by
  simp only [calculate_overlap_area]
  rw [max_comm r1.x0 r2.x0, max_comm r1.y0 r2.y0, min_comm r1.x1 r2.x1,
      min_comm r1.y1 r2.y1, min_comm (rectArea r1) (rectArea r2)]

/-! ## C10 -/

/-- C10: `calculate_overlap_area` is total over degenerate rectangles:
whenever the smaller of the two rectangle areas is zero or negative, it
returns 0 instead of dividing by zero. -/
theorem overlap_zero_area_guard (r1 r2 : Rect)
    (h : min (rectArea r1) (rectArea r2) ≤ 0) :
    calculate_overlap_area r1 r2 = 0 := by
  simp only [calculate_overlap_area]
  split
  · rfl
  · rw [if_neg (by omega)]

/-- Witness for C10: two identical zero-area rectangles yield 0, not 100. -/
theorem overlap_zero_area_guard_witness :
    min (rectArea ⟨0, 0, 0, 0⟩) (rectArea ⟨0, 0, 0, 0⟩) ≤ 0 ∧
    calculate_overlap_area ⟨0, 0, 0, 0⟩ ⟨0, 0, 0, 0⟩ = 0 :=
  ⟨by decide, overlap_zero_area_guard ⟨0, 0, 0, 0⟩ ⟨0, 0, 0, 0⟩ (by decide)⟩

/-! ## C3 -/

/-- Counterexample to C3 as stated: for the identical zero-area rectangles
`(0, 0, 0, 0)` the function returns 0, not 100, because the division is
guarded by `min_area > 0`. -/
theorem overlap_identical_degenerate_counterexample :
    ¬ (calculate_overlap_area ⟨0, 0, 0, 0⟩ ⟨0, 0, 0, 0⟩ = 100) := by
  decide

/-- C3 (amended): restricted to rectangles of positive area, the claimed
description of `calculate_overlap_area` holds: on intersecting rectangles
whose smaller area is positive it returns
`(intersection_area / min(area1, area2)) * 100`; on non-intersecting
rectangles it returns 0; identical positive-area rectangles give 100; a
positive-area rectangle fully contained in another gives 100; and the
function is symmetric under swapping its arguments. -/
theorem overlap_definition_amended :
    (∀ r1 r2 : Rect,
      ¬ (min r1.x1 r2.x1 < max r1.x0 r2.x0 ∨ min r1.y1 r2.y1 < max r1.y0 r2.y0) →
      0 < min (rectArea r1) (rectArea r2) →
      calculate_overlap_area r1 r2 =
        (((min r1.x1 r2.x1 - max r1.x0 r2.x0) * (min r1.y1 r2.y1 - max r1.y0 r2.y0) : ℤ) : ℚ) /
          ((min (rectArea r1) (rectArea r2) : ℤ) : ℚ) * 100) ∧
    (∀ r1 r2 : Rect,
      (min r1.x1 r2.x1 < max r1.x0 r2.x0 ∨ min r1.y1 r2.y1 < max r1.y0 r2.y0) →
      calculate_overlap_area r1 r2 = 0) ∧
    (∀ r : Rect, r.x0 < r.x1 → r.y0 < r.y1 → calculate_overlap_area r r = 100) ∧
    (∀ r1 r2 : Rect, r1.x0 ≤ r2.x0 → r2.x1 ≤ r1.x1 → r1.y0 ≤ r2.y0 → r2.y1 ≤ r1.y1 →
      r2.x0 < r2.x1 → r2.y0 < r2.y1 → calculate_overlap_area r1 r2 = 100) ∧
    (∀ r1 r2 : Rect, calculate_overlap_area r1 r2 = calculate_overlap_area r2 r1) := by
  refine ⟨?_, ?_, ?_, ?_, fun r1 r2 => calcOverlap_comm r1 r2⟩
  · intro r1 r2 hnd hpos
    simp only [calculate_overlap_area]
    rw [if_neg hnd, if_pos hpos]
  · intro r1 r2 hd
    simp only [calculate_overlap_area]
    rw [if_pos hd]
  · intro r hx hy
    have hA : (0 : ℤ) < (r.x1 - r.x0) * (r.y1 - r.y0) :=
      mul_pos (by omega) (by omega)
    simp only [calculate_overlap_area, rectArea, min_self, max_self]
    rw [if_neg (by omega), if_pos hA, div_self (by exact_mod_cast hA.ne'), one_mul]
  · intro r1 r2 hx0 hx1 hy0 hy1 hpx hpy
    have hA2 : (0 : ℤ) < rectArea r2 := mul_pos (by omega) (by omega)
    have hle : rectArea r2 ≤ rectArea r1 := by
      simp only [rectArea]
      exact mul_le_mul (by omega) (by omega) (by omega) (by omega)
    simp only [calculate_overlap_area]
    rw [max_eq_right hx0, max_eq_right hy0, min_eq_right hx1, min_eq_right hy1,
        min_eq_right hle, if_neg (by omega), if_pos hA2]
    rw [show rectArea r2 = (r2.x1 - r2.x0) * (r2.y1 - r2.y0) from rfl,
        div_self (by exact_mod_cast (mul_pos (show (0:ℤ) < r2.x1 - r2.x0 by omega)
          (show (0:ℤ) < r2.y1 - r2.y0 by omega)).ne'), one_mul]

/-- Witness for C3 (amended): each part of the amended description evaluated
at concrete rectangles. -/
theorem overlap_definition_amended_witness :
    calculate_overlap_area ⟨0, 0, 2, 2⟩ ⟨1, 1, 3, 3⟩ = 25 ∧
    calculate_overlap_area ⟨0, 0, 1, 1⟩ ⟨5, 5, 6, 6⟩ = 0 ∧
    calculate_overlap_area ⟨0, 0, 2, 2⟩ ⟨0, 0, 2, 2⟩ = 100 ∧
    calculate_overlap_area ⟨0, 0, 10, 10⟩ ⟨2, 2, 4, 4⟩ = 100 := by
  refine ⟨?_, ?_, ?_, ?_⟩
  · rw [overlap_definition_amended.1 ⟨0, 0, 2, 2⟩ ⟨1, 1, 3, 3⟩ (by decide) (by decide)]
    norm_num [rectArea]
  · exact overlap_definition_amended.2.1 ⟨0, 0, 1, 1⟩ ⟨5, 5, 6, 6⟩ (by decide)
  · exact overlap_definition_amended.2.2.1 ⟨0, 0, 2, 2⟩ (by decide) (by decide)
  · exact overlap_definition_amended.2.2.2.1 ⟨0, 0, 10, 10⟩ ⟨2, 2, 4, 4⟩
      (by decide) (by decide) (by decide) (by decide) (by decide) (by decide)

/-! ## C9 -/

/-- Counterexample to C9 as stated: for `img_size = 5` the footprint
rectangle has width `2 * (5 / 2) = 4`, not 5. -/
theorem footprint_width_counterexample :
    ¬ ((footprintRect 0 0 5).x1 - (footprintRect 0 0 5).x0 = (5 : Int)) := by
  decide

/-- C9 (amended): the footprint rectangle built for a candidate point
`P = (x, y)` is an axis-aligned box of width and height `2 * (img_size / 2)`
centered at `P` (so both sides equal `img_size` exactly when `img_size` is
even; for odd `img_size` they are `img_size - 1`). -/
theorem footprint_shape_amended :
    (∀ (x y : Int) (img_size : Nat),
      (footprintRect x y img_size).x1 - (footprintRect x y img_size).x0 =
        2 * ((img_size / 2 : Nat) : Int) ∧
      (footprintRect x y img_size).y1 - (footprintRect x y img_size).y0 =
        2 * ((img_size / 2 : Nat) : Int) ∧
      (footprintRect x y img_size).x0 + (footprintRect x y img_size).x1 = 2 * x ∧
      (footprintRect x y img_size).y0 + (footprintRect x y img_size).y1 = 2 * y) ∧
    (∀ (x y : Int) (k : Nat),
      (footprintRect x y (2 * k)).x1 - (footprintRect x y (2 * k)).x0 = ((2 * k : Nat) : Int)) := by
  constructor
  · intro x y img_size
    refine ⟨?_, ?_, ?_, ?_⟩ <;> simp only [footprintRect] <;> omega
  · intro x y k
    simp only [footprintRect]
    omega

/-- Each primary-phase iteration either leaves `selected` unchanged or
appends the candidate (as `(x, y)`). -/
theorem primaryStep_selected_cases (n img : Nat) (m : ℚ) (s : PrimaryState) (p : Int × Int) :
    (primaryStep n img m s p).selected = s.selected ∨
    (primaryStep n img m s p).selected = s.selected ++ [(p.2, p.1)] := by
  unfold primaryStep
  dsimp only
  split
  · exact Or.inl rfl
  · split
    · exact Or.inl rfl
    · exact Or.inr rfl

/-- Each primary-phase iteration either leaves `placed` unchanged or appends
the candidate's footprint rectangle, and in the latter case the guard of
lines 53-56 ensures its overlap with every previously placed rectangle is at
most the threshold. -/
theorem primaryStep_placed_cases (n img : Nat) (m : ℚ) (s : PrimaryState) (p : Int × Int) :
    (primaryStep n img m s p).placed = s.placed ∨
    ((primaryStep n img m s p).placed = s.placed ++ [footprintRect p.2 p.1 img] ∧
      ∀ r2 ∈ s.placed, calculate_overlap_area (footprintRect p.2 p.1 img) r2 ≤ m) := by
  unfold primaryStep
  dsimp only
  split
  · exact Or.inl rfl
  · split
    · exact Or.inl rfl
    · rename_i hany
      refine Or.inr ⟨rfl, ?_⟩
      intro r2 hr2
      by_contra hgt
      exact hany (List.any_eq_true.mpr ⟨r2, hr2, decide_eq_true (not_le.mp hgt)⟩)

/-- If enough points are already selected, the primary loop leaves the state
untouched (the `break` of lines 47-48). -/
theorem foldl_primaryStep_frozen (n img : Nat) (m : ℚ) :
    ∀ (l : List (Int × Int)) (s : PrimaryState), n ≤ s.selected.length →
      l.foldl (primaryStep n img m) s = s := by
  intro l
  induction l with
  | nil => intro s _; rfl
  | cons p t ih =>
    intro s hs
    have hstep : primaryStep n img m s p = s := by
      unfold primaryStep
      rw [if_pos hs]
    rw [List.foldl_cons, hstep, ih s hs]

/-- The primary loop never grows `selected` beyond `num_points`. -/
theorem foldl_primaryStep_length_le (n img : Nat) (m : ℚ) :
    ∀ (l : List (Int × Int)) (s : PrimaryState), s.selected.length ≤ n →
      ((l.foldl (primaryStep n img m) s).selected).length ≤ n := by
  intro l
  induction l with
  | nil => intro s hs; exact hs
  | cons p t ih =>
    intro s hs
    rw [List.foldl_cons]
    apply ih
    rcases Nat.lt_or_ge s.selected.length n with hlt | hge
    · rcases primaryStep_selected_cases n img m s p with hc | hc <;> rw [hc]
      · exact hs
      · simp only [List.length_append, List.length_cons, List.length_nil]
        omega
    · have : primaryStep n img m s p = s := by
        unfold primaryStep
        rw [if_pos hge]
      rw [this]
      exact hs


/-- The primary loop grows `selected` by at most one point per candidate. -/
theorem foldl_primaryStep_length_growth (n img : Nat) (m : ℚ) :
    ∀ (l : List (Int × Int)) (s : PrimaryState),
      ((l.foldl (primaryStep n img m) s).selected).length ≤ s.selected.length + l.length := by
  intro l
  induction l with
  | nil => intro s; simp
  | cons p t ih =>
    intro s
    rw [List.foldl_cons]
    refine le_trans (ih (primaryStep n img m s p)) ?_
    rcases primaryStep_selected_cases n img m s p with hc | hc <;> rw [hc] <;>
      simp only [List.length_append, List.length_cons, List.length_nil] <;> omega

/-- The primary loop preserves pairwise boundedness of overlaps among the
placed rectangles. -/
theorem foldl_primaryStep_pairwise (n img : Nat) (m : ℚ) :
    ∀ (l : List (Int × Int)) (s : PrimaryState),
      s.placed.Pairwise (fun a b => calculate_overlap_area a b ≤ m) →
      ((l.foldl (primaryStep n img m) s).placed).Pairwise
        (fun a b => calculate_overlap_area a b ≤ m) := by
  intro l
  induction l with
  | nil => intro s hs; exact hs
  | cons p t ih =>
    intro s hs
    rw [List.foldl_cons]
    apply ih
    rcases primaryStep_placed_cases n img m s p with hc | ⟨hc, hall⟩ <;> rw [hc]
    · exact hs
    · rw [List.pairwise_append]
      refine ⟨hs, List.pairwise_singleton _ _, ?_⟩
      intro a ha b hb
      rw [List.mem_singleton] at hb
      subst hb
      rw [calcOverlap_comm]
      exact hall a ha

/-! ## C1 -/

/-- C1: in every run, any two distinct rectangles accepted during the primary
(constrained) phase and appended to the placed-rectangle list overlap by at
most `max_overlap_percent` according to `calculate_overlap_area`. -/
theorem primary_overlap_invariant (num_points img_size : Nat) (m : ℚ)
    (pixels : List (Int × Int)) (i j : Nat)
    (hi : i < (primaryRun num_points img_size m pixels).placed.length)
    (hj : j < (primaryRun num_points img_size m pixels).placed.length)
    (hij : i ≠ j) :
    calculate_overlap_area
      ((primaryRun num_points img_size m pixels).placed.get ⟨i, hi⟩)
      ((primaryRun num_points img_size m pixels).placed.get ⟨j, hj⟩) ≤ m := by
  have hp : ((primaryRun num_points img_size m pixels).placed).Pairwise
      (fun a b => calculate_overlap_area a b ≤ m) :=
    foldl_primaryStep_pairwise num_points img_size m pixels _ List.Pairwise.nil
  rcases Nat.lt_or_ge i j with hlt | hge
  · exact List.pairwise_iff_get.mp hp ⟨i, hi⟩ ⟨j, hj⟩ hlt
  · have hjlt : j < i := Nat.lt_of_le_of_ne hge (Ne.symm hij)
    rw [calcOverlap_comm]
    exact List.pairwise_iff_get.mp hp ⟨j, hj⟩ ⟨i, hi⟩ hjlt

/-- Witness for C1: a run that places two disjoint rectangles; their overlap
is at most 20. -/
theorem primary_overlap_invariant_witness :
    calculate_overlap_area
      ((primaryRun 2 10 20 [(0, 0), (0, 20)]).placed.get ⟨0, by with_unfolding_all decide⟩)
      ((primaryRun 2 10 20 [(0, 0), (0, 20)]).placed.get ⟨1, by with_unfolding_all decide⟩) ≤ 20 :=
  primary_overlap_invariant 2 10 20 [(0, 0), (0, 20)] 0 1
    (by with_unfolding_all decide) (by with_unfolding_all decide) (by decide)

/-- Closed form of the fallback phase: it appends, in order, the in-bounds
candidates (swapped to `(x, y)`) until `num_points` is reached. -/
theorem fallbackPhase_eq (n : Nat) (w h : Int) (img : Nat) :
    ∀ (pixels sel : List (Int × Int)),
      fallbackPhase n w h img sel pixels =
        sel ++ ((pixels.filter (inBoundsFB w h img)).take (n - sel.length)).map
          (fun p => (p.2, p.1)) := by
  intro pixels
  induction pixels with
  | nil => intro sel; simp [fallbackPhase]
  | cons p t ih =>
    intro sel
    unfold fallbackPhase at ih ⊢
    rw [List.foldl_cons]
    rcases Nat.lt_or_ge sel.length n with hlt | hge
    · cases hbv : inBoundsFB w h img p with
      | true =>
        have hstep : fallbackStep n w h img sel p = sel ++ [(p.2, p.1)] := by
          unfold fallbackStep
          rw [if_neg (by omega), if_pos hbv]
        rw [hstep, ih]
        obtain ⟨k, hk⟩ : ∃ k, n - sel.length = k + 1 := ⟨n - sel.length - 1, by omega⟩
        have hlen : n - (sel ++ [(p.2, p.1)]).length = k := by
          simp only [List.length_append, List.length_cons, List.length_nil]
          omega
        rw [hlen, hk]
        simp only [List.filter_cons, hbv, if_true, List.take_succ_cons, List.map_cons,
          List.append_assoc, List.singleton_append]
      | false =>
        have hstep : fallbackStep n w h img sel p = sel := by
          unfold fallbackStep
          rw [if_neg (by omega), if_neg (by simp [hbv])]
        rw [hstep, ih]
        simp [List.filter_cons, hbv]
    · have hstep : fallbackStep n w h img sel p = sel := by
        unfold fallbackStep
        rw [if_pos hge]
      rw [hstep, ih]
      have hz : n - sel.length = 0 := by omega
      simp [hz]

/-- Closed form of the whole selection: the primary-phase output followed by
the fallback-phase completion. -/
theorem generate_eq (n : Nat) (w h : Int) (img : Nat) (m : ℚ) (s1 s2 : List (Int × Int)) :
    generate_solid_heart_points n w h img m s1 s2 =
      (primaryRun n img m s1).selected ++
        ((s2.filter (inBoundsFB w h img)).take
          (n - (primaryRun n img m s1).selected.length)).map (fun p => (p.2, p.1)) := by
  unfold generate_solid_heart_points
  dsimp only
  split
  · exact fallbackPhase_eq n w h img s2 _
  · rename_i hge
    have hz : n - (primaryRun n img m s1).selected.length = 0 := by omega
    rw [hz]
    simp

/-! ## C2 -/

/-- C2: for every requested count the returned list has length at most
`num_points`, and a request of 0 points returns the empty list. -/
theorem generate_count_upper_bound (n : Nat) (w h : Int) (img : Nat) (m : ℚ)
    (s1 s2 : List (Int × Int)) :
    (generate_solid_heart_points n w h img m s1 s2).length ≤ n ∧
    generate_solid_heart_points 0 w h img m s1 s2 = [] := by
  constructor
  · rw [generate_eq]
    have h1 : (primaryRun n img m s1).selected.length ≤ n :=
      foldl_primaryStep_length_le n img m s1 ⟨[], [], s1, []⟩ (by simp)
    have h2 : (((s2.filter (inBoundsFB w h img)).take
        (n - (primaryRun n img m s1).selected.length)).map (fun p => (p.2, p.1))).length ≤
        n - (primaryRun n img m s1).selected.length := by
      rw [List.length_map]
      exact (List.length_take_le _ _)
    rw [List.length_append]
    omega
  · have hp : primaryRun 0 img m s1 = ⟨[], [], s1, []⟩ :=
      foldl_primaryStep_frozen 0 img m s1 ⟨[], [], s1, []⟩ (by simp)
    unfold generate_solid_heart_points
    rw [hp]
    simp [fallbackPhase]

/-! ## C5 -/

/-- C5: every point appended by the fallback phase satisfies the containment
check `0 < x < width - img_size` and `0 < y < height - img_size`, and the
fallback additions are exactly the in-bounds candidates taken in order with
no overlap constraint. -/
theorem fallback_containment (n : Nat) (w h : Int) (img : Nat) (m : ℚ)
    (s1 s2 : List (Int × Int)) :
    generate_solid_heart_points n w h img m s1 s2 =
      (primaryRun n img m s1).selected ++
        ((s2.filter (inBoundsFB w h img)).take
          (n - (primaryRun n img m s1).selected.length)).map (fun p => (p.2, p.1)) ∧
    ∀ q ∈ ((s2.filter (inBoundsFB w h img)).take
          (n - (primaryRun n img m s1).selected.length)).map (fun p => (p.2, p.1)),
      0 < q.1 ∧ q.1 < w - (img : Int) ∧ 0 < q.2 ∧ q.2 < h - (img : Int) := by
  refine ⟨generate_eq n w h img m s1 s2, ?_⟩
  intro q hq
  rw [List.mem_map] at hq
  obtain ⟨p, hp, rfl⟩ := hq
  have hpf : p ∈ s2.filter (inBoundsFB w h img) := List.mem_of_mem_take hp
  have hb := List.of_mem_filter hpf
  rw [inBoundsFB, decide_eq_true_eq] at hb
  exact ⟨hb.1, hb.2.1, hb.2.2.1, hb.2.2.2⟩

/-- Witness for C5: with an empty primary phase, the fallback accepts the
in-bounds pixel `(y, x) = (1, 1)` on a 10×10 canvas with `img_size = 2`. -/
theorem fallback_containment_witness :
    (0 : Int) < 1 ∧ (1 : Int) < 10 - ((2 : Nat) : Int) ∧
    (0 : Int) < 1 ∧ (1 : Int) < 10 - ((2 : Nat) : Int) :=
  (fallback_containment 1 10 10 2 20 [] [(1, 1)]).2 (1, 1) (by with_unfolding_all decide)

/-! ## C6 -/

/-- C6: if the mask has no true pixel, the primary phase selects nothing and
the function returns the empty list. -/
theorem empty_mask_empty_result (mask : List (List Bool)) (n : Nat) (w h : Int)
    (img : Nat) (m : ℚ) (s1 s2 : List (Int × Int))
    (hmask : ∀ row ∈ mask, ∀ b ∈ row, b = false)
    (h1 : s1.Perm (truePixels mask)) (h2 : s2.Perm (truePixels mask)) :
    (primaryRun n img m s1).selected = [] ∧
    generate_solid_heart_points n w h img m s1 s2 = [] := by
  have ht : truePixels mask = [] := by
    unfold truePixels
    rw [List.flatten_eq_nil_iff]
    intro l hl
    rw [List.mem_map] at hl
    obtain ⟨⟨i, row⟩, hrow, rfl⟩ := hl
    have hrowmem : row ∈ mask :=
      List.getElem?_mem (List.mem_enum_iff_getElem?.mp hrow)
    rw [List.filterMap_eq_nil_iff]
    intro c hc
    have hcmem : c.2 ∈ row :=
      List.getElem?_mem (List.mem_enum_iff_getElem?.mp hc)
    have hcf : c.2 = false := hmask row hrowmem c.2 hcmem
    simp [hcf]
  have hs1 : s1 = [] := (ht ▸ h1).eq_nil
  have hs2 : s2 = [] := (ht ▸ h2).eq_nil
  subst hs1
  subst hs2
  exact ⟨rfl, by simp [generate_solid_heart_points, primaryRun, fallbackPhase]⟩

/-- Witness for C6: the all-false 1×1 mask yields the empty result. -/
theorem empty_mask_empty_result_witness :
    (primaryRun 3 2 20 []).selected = [] ∧
    generate_solid_heart_points 3 10 10 2 20 [] [] = [] :=
  empty_mask_empty_result [[false]] 3 10 10 2 20 [] [] (by decide) (by decide) (by decide)

/-! ## C7 -/

/-- Counterexample to C7 as stated: on the mask with exactly one true pixel
`(row, col) = (1, 1)` and request `num_points = 2`, the primary phase selects
the pixel and the fallback phase re-extracts and appends it again, so the
result has 2 points — more than the mask's 1 true pixel.  The shuffle lists
used are genuine permutations of the mask's true pixels. -/
theorem result_exceeds_true_pixels_counterexample :
    List.Perm [((1 : Int), (1 : Int))] (truePixels [[false, false], [false, true]]) ∧
    (truePixels [[false, false], [false, true]]).length = 1 ∧
    ¬ ((generate_solid_heart_points 2 10 10 2 20 [(1, 1)] [(1, 1)]).length ≤
        (truePixels [[false, false], [false, true]]).length) := by
  refine ⟨by decide, by decide, ?_⟩
  with_unfolding_all decide

/-- C7 (amended): the number of returned points is at most twice the number
of true pixels of the mask (at most one copy per true pixel from each of the
two phases, since the fallback phase re-extracts the full candidate set). -/
theorem result_le_twice_true_pixels (mask : List (List Bool)) (n : Nat)
    (w h : Int) (img : Nat) (m : ℚ) (s1 s2 : List (Int × Int))
    (h1 : s1.Perm (truePixels mask)) (h2 : s2.Perm (truePixels mask)) :
    (generate_solid_heart_points n w h img m s1 s2).length ≤
      2 * (truePixels mask).length := by
  rw [generate_eq, List.length_append]
  have e1 : s1.length = (truePixels mask).length := h1.length_eq
  have e2 : s2.length = (truePixels mask).length := h2.length_eq
  have hp : (primaryRun n img m s1).selected.length ≤ s1.length := by
    have := foldl_primaryStep_length_growth n img m s1 ⟨[], [], s1, []⟩
    simpa using this
  have hf : (((s2.filter (inBoundsFB w h img)).take
      (n - (primaryRun n img m s1).selected.length)).map (fun p => (p.2, p.1))).length ≤
      s2.length := by
    rw [List.length_map, List.length_take]
    exact le_trans (min_le_right _ _) (List.length_filter_le _ _)
  omega

/-- Witness for C7 (amended): the counterexample configuration satisfies the
doubled bound. -/
theorem result_le_twice_true_pixels_witness :
    (generate_solid_heart_points 2 10 10 2 20 [(1, 1)] [(1, 1)]).length ≤
      2 * (truePixels [[false, false], [false, true]]).length :=
  result_le_twice_true_pixels [[false, false], [false, true]] 2 10 10 2 20
    [(1, 1)] [(1, 1)] (by decide) (by decide)

/-! ## C4 -/

/-- C4 (code-bug evaluation): run with `num_points = 6`, `img_size = 10`,
`max_overlap_percent = 20` on the candidate order
`[(0,0), (0,20), (0,40), (0,60), (0,80), (0,81)]`.  The 5th accepted point is
`(x, y) = (80, 0)`; the remaining candidate `(0, 81)` lies within the pruning
radius (`keepAfterPrune` is false for it, and it is indeed removed from the
candidate-set variable `cur`), yet it is still tested afterwards, because the
Python `for` loop keeps iterating the array captured at loop entry — the
reassignment of `heart_pixels` inside the loop does not affect the scan. -/
theorem pruning_dead_code_eval :
    keepAfterPrune (pruneThreshold 10 20) 0 80 (0, 81) = false ∧
    (0, 81) ∉ (primaryRun 6 10 20 [(0, 0), (0, 20), (0, 40), (0, 60), (0, 80), (0, 81)]).cur ∧
    (0, 81) ∈ (primaryRun 6 10 20 [(0, 0), (0, 20), (0, 40), (0, 60), (0, 80), (0, 81)]).tested ∧
    (primaryRun 6 10 20 [(0, 0), (0, 20), (0, 40), (0, 60), (0, 80), (0, 81)]).selected =
      [(0, 0), (20, 0), (40, 0), (60, 0), (80, 0)] := by
  with_unfolding_all decide

/-! ## C8 -/

/-- Binding a successful `Except` computation just applies the
continuation. -/
theorem exceptOk_bind {α β : Type} (a : α) (f : α → Except String β) :
    (Except.ok a >>= f) = f a := rfl

/-- The explicit-division overlap computation never fails and agrees with
`calculate_overlap_area`: the `min_area > 0` guard protects the division. -/
theorem calcOverlapE_eq (r1 r2 : Rect) :
    calculate_overlap_areaE r1 r2 = Except.ok (calculate_overlap_area r1 r2) := by
  unfold calculate_overlap_areaE calculate_overlap_area qdivE
  dsimp only
  split
  · rfl
  · split
    · rename_i hpos
      rw [if_neg (show ¬ ((min (rectArea r1) (rectArea r2) : ℤ) : ℚ) = 0 from by
        exact_mod_cast (ne_of_gt hpos))]
      rfl
    · rfl

/-- The fallible inner overlap loop agrees with the `any` of the pure model. -/
theorem anyOverlapE_eq (m : ℚ) (rect1 : Rect) :
    ∀ l : List Rect, anyOverlapE m rect1 l =
      Except.ok (l.any (fun rect2 => decide (m < calculate_overlap_area rect1 rect2))) := by
  intro l
  induction l with
  | nil => rfl
  | cons r t ih =>
    simp only [anyOverlapE, calcOverlapE_eq, exceptOk_bind, List.any_cons]
    by_cases hm : m < calculate_overlap_area rect1 r
    · rw [if_pos hm]
      simp [hm]
    · rw [if_neg hm, ih]
      simp [hm]

/-- The fallible primary-loop body agrees with the pure one. -/
theorem primaryStepE_eq (n img : Nat) (m : ℚ) (s : PrimaryState) (p : Int × Int) :
    primaryStepE n img m s p = Except.ok (primaryStep n img m s p) := by
  unfold primaryStepE primaryStep
  dsimp only
  split
  · rfl
  · rw [anyOverlapE_eq, exceptOk_bind]
    cases hany : s.placed.any (fun rect2 =>
        decide (m < calculate_overlap_area (footprintRect p.2 p.1 img) rect2)) with
    | true => rfl
    | false => rfl

/-- The fallible primary phase agrees with the pure one, step by step. -/
theorem foldlM_primaryStepE_eq (n img : Nat) (m : ℚ) :
    ∀ (l : List (Int × Int)) (s : PrimaryState),
      l.foldlM (primaryStepE n img m) s = Except.ok (l.foldl (primaryStep n img m) s) := by
  intro l
  induction l with
  | nil => intro s; rfl
  | cons p t ih =>
    intro s
    rw [List.foldlM_cons, primaryStepE_eq, exceptOk_bind, List.foldl_cons]
    exact ih (primaryStep n img m s p)

/-- The fallible primary phase agrees with the pure one. -/
theorem primaryRunE_eq (n img : Nat) (m : ℚ) (pixels : List (Int × Int)) :
    primaryRunE n img m pixels = Except.ok (primaryRun n img m pixels) :=
  foldlM_primaryStepE_eq n img m pixels ⟨[], [], pixels, []⟩

/-- C8: `generate_solid_heart_points` is total and never raises: the fallible
model (with Python's `ZeroDivisionError` made explicit) always returns
`Except.ok` of the pure result, for every input — including geometrically
infeasible requests, where the result is simply shorter than requested. -/
theorem generate_total_no_raise (n : Nat) (w h : Int) (img : Nat) (m : ℚ)
    (s1 s2 : List (Int × Int)) :
    generate_solid_heart_pointsE n w h img m s1 s2 =
      Except.ok (generate_solid_heart_points n w h img m s1 s2) := by
  unfold generate_solid_heart_pointsE generate_solid_heart_points
  rw [primaryRunE_eq, exceptOk_bind]
  dsimp only
  split <;> rfl

end Heart
